import Mathlib

/-!
Shallow embedding of the llm-chess match orchestrator
(src/controller/game_controller.py, src/chess_engine/game.py,
src/llm/anthropic_llm.py, src/llm/openai_llm.py).

The chess rules engine (the python-chess library) is external to the
repository; it is modelled as an abstract `Engine` record of the operations
the code calls on it (`board.turn`, `board.legal_moves`, `board.push`,
`board.is_game_over()`, `board.is_checkmate()`, `board.san`,
`board.parse_san`, `chess.Move.from_uci`).  Thinking times, clocks and
confidences (Python floats) are modelled as rationals.  Python exceptions
are modelled explicitly: a fallible operation returns an `Except` value
carrying the error together with the mutated controller state, because a
raising Python method leaves its in-place mutations visible to the caller.
-/

/-- Result dataclass of a proposer call (`ChessMove` in src/llm/base.py). -/
structure ChessMove where
  move : String
  explanation : String
  confidence : Rat
  thinking_time : Rat
  deriving DecidableEq

/-- Python exceptions that the controller code can raise itself:
`TypeError` (from calling the string-valued property `self.game.result`)
and `KeyError` (from reading an absent dict key such as
`game_stats["result"]`). -/
inductive PyErr where
  | typeError (msg : String)
  | keyError (key : String)
  deriving DecidableEq

/-- Python `str(e)` on the modelled exceptions: a `KeyError` renders as the
quoted key. -/
def PyErr.str : PyErr → String
  | .typeError m => m
  | .keyError k => "\x27" ++ k ++ "\x27"

/-- Outcome of one `await player.get_next_move(...)` call, as observed by
`GameController._get_next_move`: the proposer either raises or returns a
`ChessMove`.  Proposer behaviour is supplied as an oracle indexed by the
call number. -/
inductive TurnResp where
  | raise (msg : String)
  | reply (m : ChessMove)

/-- Abstract interface of the external rules engine (python-chess), holding
exactly the operations the repository calls.  `Pos` is the opaque board
state; `from_uci` is `chess.Move.from_uci` (`none` models the `ValueError`
on an unparsable string); `parse_san` is `board.parse_san(...).uci()`
(`none` models the `ValueError` on an illegal or unparsable SAN). -/
structure Engine where
  Pos : Type
  start : Pos
  turn : Pos → Bool
  legal_moves : Pos → List String
  push : Pos → String → Pos
  is_game_over : Pos → Bool
  is_checkmate : Pos → Bool
  san : Pos → String → String
  parse_san : Pos → String → Option String
  from_uci : String → Option String
  fen : Pos → String

/-- Game state of `ChessGame` (src/chess_engine/game.py): the board, the
two player names, the `(move_uci, move_san, explanation)` history, and the
start date string used in the PGN `Date` header. -/
structure ChessGame (E : Engine) where
  board : E.Pos
  player1 : String
  player2 : String
  move_history : List (String × String × String)
  start_date : String

/-- Property `ChessGame.is_game_over`. -/
def ChessGame.is_game_over {E : Engine} (g : ChessGame E) : Bool :=
  E.is_game_over g.board

/-- Property `ChessGame.result`: `"*"` while ongoing; on checkmate the side
to move loses (`board.turn == chess.BLACK`, i.e. `turn = false`, gives
`"1-0"`); any other game over is `"1/2-1/2"`. -/
def ChessGame.result {E : Engine} (g : ChessGame E) : String :=
  if !g.is_game_over then "*"
  else if E.is_checkmate g.board then
    (if E.turn g.board = false then "1-0" else "0-1")
  else "1/2-1/2"

/-- Method `ChessGame.make_move`: parse the UCI string
(`chess.Move.from_uci`, `ValueError` gives `False`), check membership in
the current legal-move set, and only then push the move and append the
history record.  Returns the success flag together with the (possibly
unchanged) game. -/
def ChessGame.make_move {E : Engine} (g : ChessGame E)
    (move_uci move_san explanation : String) : Bool × ChessGame E :=
  match E.from_uci move_uci with
  | none => (false, g)
  | some move =>
    if move ∈ E.legal_moves g.board then
      (true, { g with board := E.push g.board move,
                      move_history := g.move_history ++ [(move_uci, move_san, explanation)] })
    else (false, g)

/-- Method `ChessGame.get_fen`. -/
def ChessGame.get_fen {E : Engine} (g : ChessGame E) : String :=
  E.fen g.board

/-- Movetext rendering of the recorded history, replaying from the
initial position, as `chess.pgn` does when `str(game)` re-derives SAN for
each pushed move.  The exact token spacing of the external pgn printer is
abstracted; what matters to the claims is that it is a deterministic pure
function of the history.  Comments render as brace-delimited blocks. -/
def movetext (E : Engine) : E.Pos → Nat → List (String × String × String) → String
  | _, _, [] => ""
  | pos, i, (move_uci, _, explanation) :: rest =>
    let sanTok := match E.from_uci move_uci with
      | some m => E.san pos m
      | none => move_uci
    let next := match E.from_uci move_uci with
      | some m => E.push pos m
      | none => pos
    let numTok := if i % 2 = 0 then toString (i / 2 + 1) ++ ". " else ""
    let commentTok := if explanation ≠ "" then " \x7b " ++ explanation ++ " \x7d" else ""
    numTok ++ sanTok ++ commentTok ++ " " ++ movetext E next (i + 1) rest

/-- Method `ChessGame.export_pgn`: the seven standard headers (`chess.pgn`
defaults `Site` and `Round` to `"?"`; the code overwrites `Event`, `Date`,
`White`, `Black`, `Result`), a blank line, then the movetext followed by
the result token. -/
def ChessGame.export_pgn {E : Engine} (g : ChessGame E) : String :=
  let res := g.result
  "[Event \"LLM Chess Battle\"]\n" ++
  "[Site \"?\"]\n" ++
  "[Date \"" ++ g.start_date ++ "\"]\n" ++
  "[Round \"?\"]\n" ++
  "[White \"" ++ g.player1 ++ "\"]\n" ++
  "[Black \"" ++ g.player2 ++ "\"]\n" ++
  "[Result \"" ++ res ++ "\"]\n" ++
  "\n" ++
  movetext E E.start 0 g.move_history ++ res

/-- Two-decimal fixed-point rendering of a rational, modelling the Python
format specifier `:.2f` applied to the (non-negative, in practice) float
statistics; deterministic by construction. -/
def fmt2 (q : Rat) : String :=
  let n : Int := Rat.floor (q * 100 + 1 / 2)
  let ip := Int.ediv n 100
  let fp := (Int.emod n 100).toNat
  toString ip ++ "." ++ (if fp < 10 then "0" else "") ++ toString fp

/-- The mutable `game_stats` dict of `GameController`: `"result"` and
`"termination"` start absent (`none` models a missing key). -/
structure GameStats where
  total_moves : Nat
  average_white : Rat
  average_black : Rat
  longest_white : Rat
  longest_black : Rat
  result : Option String
  termination : Option String
  deriving DecidableEq

/-- State of `GameController` (src/controller/game_controller.py):
the game, the optional per-side clock pair (white, black; `none` models an
untimed match), the per-side `move_times` lists, the `max_moves`
configuration and the statistics dict.  The two player objects are
replaced by the response oracle passed to the loop functions. -/
structure GameController (E : Engine) where
  game : ChessGame E
  time_remaining : Option (Rat × Rat)
  move_times_white : List Rat
  move_times_black : List Rat
  max_moves : Option Nat
  game_stats : GameStats

/-- `GameController.__init__`: fresh game, clocks set to the time control
for both sides when one is configured (Python truthiness: `None` and `0`
both mean untimed), empty move-time lists, zeroed statistics with
`result` and `termination` keys absent. -/
def GameController.init (E : Engine) (white_name black_name : String)
    (time_control : Option Rat) (max_moves : Option Nat)
    (start_date : String) : GameController E :=
  { game := { board := E.start,
              player1 := "LLM-White (" ++ white_name ++ ")",
              player2 := "LLM-Black (" ++ black_name ++ ")",
              move_history := [],
              start_date := start_date }
    time_remaining := match time_control with
      | some t => if t = 0 then none else some (t, t)
      | none => none
    move_times_white := []
    move_times_black := []
    max_moves := max_moves
    game_stats := { total_moves := 0, average_white := 0, average_black := 0,
                    longest_white := 0, longest_black := 0,
                    result := none, termination := none } }

/-- Python color string for the side to move. -/
def color_name (is_white : Bool) : String :=
  if is_white then "white" else "black"

/-- Truth value of `self.max_moves and self.game_stats["total_moves"] >=
self.max_moves` (Python truthiness: `None` and `0` are falsy). -/
def GameController.max_moves_hit {E : Engine} (c : GameController E) : Bool :=
  match c.max_moves with
  | some m => decide (m ≠ 0) && decide (m ≤ c.game_stats.total_moves)
  | none => false

/-- Method `GameController._is_game_finished`.  On a finished game the code
first assigns `termination`, then evaluates `self.game.result()` — but
`result` is a string-valued property, so the call raises `TypeError`
(leaving the `termination` assignment in place); the `result` key is never
assigned.  Otherwise the max-moves check sets only `termination`. -/
def GameController.is_game_finished {E : Engine} (c : GameController E) :
    Except (PyErr × GameController E) (Bool × GameController E) :=
  if c.game.is_game_over then
    Except.error (PyErr.typeError "\x27str\x27 object is not callable",
      { c with game_stats := { c.game_stats with termination := some "Normal chess ending" } })
  else if c.max_moves_hit then
    Except.ok (true,
      { c with game_stats := { c.game_stats with termination := some "Maximum moves reached" } })
  else
    Except.ok (false, c)

/-- Second half of `GameController._get_next_move` (lines 103-119): parse
the SAN reply (`board.parse_san(...).uci()`; `ValueError` gives `None`),
rewrite `move_result.move` to UCI, call `make_move` with the confidence
annotation, and return the move on success (`False`, merged with `None`
into `none` here, otherwise — the caller only tests falsiness). -/
def GameController.get_next_move_apply {E : Engine} (c : GameController E)
    (move_result : ChessMove) : Option ChessMove × GameController E :=
  match E.parse_san c.game.board move_result.move with
  | none => (none, c)
  | some uci_move =>
    let san_move := move_result.move
    let mr := { move_result with move := uci_move }
    let sg := c.game.make_move mr.move san_move
      (mr.explanation ++ " (confidence: " ++ fmt2 mr.confidence ++ ")")
    (if sg.1 then some mr else none, { c with game := sg.2 })

/-- Method `GameController._get_next_move` for one proposer response: a
raising proposer is caught by the enclosing `except` and gives `None`;
otherwise, under time control, the reply's thinking time is first
subtracted from the active side's clock, and if the clock is now at or
below zero the method records `"{color} lost on time"` and returns `None`
before parsing or applying the move; otherwise the move is parsed and
applied. -/
def GameController.get_next_move {E : Engine} (c : GameController E)
    (is_white : Bool) (resp : TurnResp) : Option ChessMove × GameController E :=
  match resp with
  | .raise _ => (none, c)
  | .reply move_result =>
    match c.time_remaining with
    | none => c.get_next_move_apply move_result
    | some tr =>
      let tr := if is_white then (tr.1 - move_result.thinking_time, tr.2)
                else (tr.1, tr.2 - move_result.thinking_time)
      let c := { c with time_remaining := some tr }
      if (if is_white then tr.1 else tr.2) ≤ 0 then
        (none, { c with game_stats := { c.game_stats with
                   termination := some (color_name is_white ++ " lost on time") } })
      else c.get_next_move_apply move_result

/-- Method `GameController._update_stats`: increment `total_moves`, append
the thinking time to the side's `move_times`, recompute the average as
sum over length, and raise the side's longest think time if exceeded. -/
def GameController.update_stats {E : Engine} (c : GameController E)
    (move : ChessMove) (is_white : Bool) : GameController E :=
  let times := (if is_white then c.move_times_white else c.move_times_black)
                 ++ [move.thinking_time]
  let avg := times.sum / (times.length : Rat)
  let longest0 := if is_white then c.game_stats.longest_white else c.game_stats.longest_black
  let longest := if longest0 < move.thinking_time then move.thinking_time else longest0
  if is_white then
    { c with move_times_white := times,
             game_stats := { c.game_stats with
               total_moves := c.game_stats.total_moves + 1,
               average_white := avg, longest_white := longest } }
  else
    { c with move_times_black := times,
             game_stats := { c.game_stats with
               total_moves := c.game_stats.total_moves + 1,
               average_black := avg, longest_black := longest } }

/-- Method `GameController.export_game`: render the PGN, build the
statistics comment, append the termination line when the key is present,
then read `self.game_stats["result"]` — a `KeyError` when the key is
absent — and append the result line when it is not `"*"`. -/
def GameController.export_game {E : Engine} (c : GameController E) :
    Except (PyErr × GameController E) (String × GameController E) :=
  let pgn := c.game.export_pgn
  let stats_comment :=
    "Game Statistics:\n" ++
    "Total Moves: " ++ toString c.game_stats.total_moves ++ "\n" ++
    "Average Think Time - White: " ++ fmt2 c.game_stats.average_white ++ "s, " ++
    "Black: " ++ fmt2 c.game_stats.average_black ++ "s\n" ++
    "Longest Think Time - White: " ++ fmt2 c.game_stats.longest_white ++ "s, " ++
    "Black: " ++ fmt2 c.game_stats.longest_black ++ "s\n"
  let stats_comment := match c.game_stats.termination with
    | some t => stats_comment ++ "Termination: " ++ t ++ "\n"
    | none => stats_comment
  match c.game_stats.result with
  | none => Except.error (PyErr.keyError "result", c)
  | some r =>
    let stats_comment := if r ≠ "*" then stats_comment ++ "Result: " ++ r ++ "\n"
                         else stats_comment
    Except.ok (pgn ++ "\n\n" ++ stats_comment, c)

/-- Outcome of one iteration of the `while` loop body in
`GameController.play_game`: an escaped exception (with the state as
mutated so far), a loop exit (terminal position, max moves, or a falsy
move result followed by the forfeit assignments and `break`), or a normal
continuation after `_update_stats`. -/
inductive IterOut (E : Engine) where
  | raised (e : PyErr) (c : GameController E)
  | done (c : GameController E)
  | next (c : GameController E)

/-- One iteration of the match loop: `_is_game_finished`, then the turn
for the side to move; a falsy move sets `result` to the opponent's win and
overwrites `termination` with `"Invalid move by {color}"` before the
`break`; a truthy move is followed by `_update_stats`. -/
def GameController.loop_iter {E : Engine} (c : GameController E)
    (resp : TurnResp) : IterOut E :=
  match c.is_game_finished with
  | .error (e, c) => .raised e c
  | .ok (true, c) => .done c
  | .ok (false, c) =>
    let is_white := E.turn c.game.board
    match c.get_next_move is_white resp with
    | (none, c) => .done { c with game_stats := { c.game_stats with
        result := some (if is_white then "0-1" else "1-0"),
        termination := some ("Invalid move by " ++ color_name is_white) } }
    | (some m, c) => .next (c.update_stats m is_white)

/-- Outcome of the whole `while` loop (the body of the `try` block before
`export_game`), with explicit fuel for the unbounded loop. -/
inductive LoopOut (E : Engine) where
  | finished (c : GameController E)
  | raised (e : PyErr) (c : GameController E)
  | fuel_out (c : GameController E)

/-- The match loop of `play_game`: iterate `loop_iter`, feeding the `k`-th
oracle response to the `k`-th proposer call. -/
def GameController.play_loop {E : Engine} (fuel : Nat) (c : GameController E)
    (oracle : Nat → TurnResp) (k : Nat) : LoopOut E :=
  match fuel with
  | 0 => .fuel_out c
  | f + 1 =>
    match c.loop_iter (oracle k) with
    | .raised e c => .raised e c
    | .done c => .finished c
    | .next c => GameController.play_loop f c oracle (k + 1)

/-- Trace of controller states seen at the loop head, ending with the
state at loop exit (or at the escaped exception).  Built from the same
`loop_iter` as `play_loop`. -/
def GameController.play_trace {E : Engine} (fuel : Nat) (c : GameController E)
    (oracle : Nat → TurnResp) (k : Nat) : List (GameController E) :=
  match fuel with
  | 0 => [c]
  | f + 1 =>
    match c.loop_iter (oracle k) with
    | .raised _ c2 => [c, c2]
    | .done c2 => [c, c2]
    | .next c2 => c :: GameController.play_trace f c2 oracle (k + 1)

/-- Observable outcome of `GameController.play_game`: a returned
transcript string, an uncaught exception escaping the method, or fuel
exhaustion of the model. -/
inductive GameOut (E : Engine) where
  | transcript (s : String) (c : GameController E)
  | uncaught (e : PyErr) (c : GameController E)
  | fuel_out (c : GameController E)

/-- The `except Exception` handler of `play_game`: set `termination` to
`"Error: {str(e)}"` and call `export_game` again; an exception raised
there escapes the method. -/
def GameController.handle_except {E : Engine} (e : PyErr)
    (c : GameController E) : GameOut E :=
  let c := { c with game_stats := { c.game_stats with
               termination := some ("Error: " ++ e.str) } }
  match c.export_game with
  | .ok sc => .transcript sc.1 sc.2
  | .error ec => .uncaught ec.1 ec.2

/-- Method `GameController.play_game`: run the loop inside `try`; on
normal exit return `export_game()` (whose own exception is still caught by
the handler); on a caught exception run the handler. -/
def GameController.play_game {E : Engine} (fuel : Nat) (c : GameController E)
    (oracle : Nat → TurnResp) : GameOut E :=
  match GameController.play_loop fuel c oracle 0 with
  | .fuel_out c => .fuel_out c
  | .finished c =>
    match c.export_game with
    | .ok sc => .transcript sc.1 sc.2
    | .error ec => GameController.handle_except ec.1 ec.2
  | .raised e c => GameController.handle_except e c

/-- A JSON object decoded from an adapter response body, holding the
values of the three keys the adapters read, each `none` when the key is
absent (`confidence = none` models the missing key; its value is read via
`float(...)` only on the return path). -/
structure ApiJson where
  move : Option String
  explanation : Option String
  confidence : Option Rat

/-- Outcome of one API attempt inside the adapter retry loop of
`AnthropicLLM.get_next_move` / `OpenAILLM.get_next_move`: the client call
raises, `json.loads` fails on the body (`noParse`), or the body decodes
to a JSON object whose individual keys may still be missing — the code
reads `result["move"]` first (for the legality test) and reads
`result["explanation"]` / `result["confidence"]` only when it is about to
return, so which missing key raises depends on the control path. -/
inductive ApiResp where
  | apiError (msg : String)
  | noParse (msg : String)
  | parsed (json : ApiJson)

/-- The adapter retry loop (`for i in range(1, self.retries + 1)`), with
the provider name interpolated into the raised messages exactly as both
adapters do.  Attempt `i` consumes `resps i`; `elapsed i` is the measured
`time.time() - start_time` at that attempt.  A raised client error or a
`json.loads` failure is re-raised immediately (wrapped by the outer
handler), as is the `KeyError` from a missing `move` key, read in the
legality test itself.  Otherwise the test `result["move"] not in
legal_moves and i < retries` runs BEFORE `explanation` and `confidence`
are read, so a response proposing an illegal move is retried even when
those keys are missing; only on the return path (legal move, or the last
attempt) does a missing `explanation` or `confidence` raise, `KeyError`
rendering as the quoted key.  The result carries the index of the last
attempt made.  `fuel` is `retries - i + 1`, making the recursion
structural; the fuel-out branch models falling off the loop (returning
`None`), unreachable for `retries ≥ 1`. -/
def llm_attempts (provider : String) (legal_moves : List String)
    (retries : Nat) (resps : Nat → ApiResp) (elapsed : Nat → Rat) :
    Nat → Nat → Except String ChessMove × Nat
  | i, 0 => (Except.error "NoneType returned", i)
  | i, fuel + 1 =>
    match resps i with
    | .apiError msg =>
      (Except.error ("Error calling " ++ provider ++ " API: " ++ msg), i)
    | .noParse msg =>
      (Except.error ("Error calling " ++ provider ++ " API: " ++
        "Invalid response format from " ++ provider ++ ": " ++ msg), i)
    | .parsed j =>
      match j.move with
      | none =>
        (Except.error ("Error calling " ++ provider ++ " API: " ++
          "Invalid response format from " ++ provider ++ ": \x27move\x27"), i)
      | some mv =>
        if mv ∉ legal_moves ∧ i < retries then
          llm_attempts provider legal_moves retries resps elapsed (i + 1) fuel
        else
          match j.explanation with
          | none =>
            (Except.error ("Error calling " ++ provider ++ " API: " ++
              "Invalid response format from " ++ provider ++ ": \x27explanation\x27"), i)
          | some ex =>
            match j.confidence with
            | none =>
              (Except.error ("Error calling " ++ provider ++ " API: " ++
                "Invalid response format from " ++ provider ++ ": \x27confidence\x27"), i)
            | some cf =>
              (Except.ok { move := mv, explanation := ex, confidence := cf,
                           thinking_time := elapsed i }, i)

/-- Method `get_next_move` of the two LLM adapters (identical logic,
parameterised by provider name): run the retry loop from attempt 1 with
`self.retries = 3` set in `BaseLLM.__init__`. -/
def llm_get_next_move (provider : String) (legal_moves : List String)
    (resps : Nat → ApiResp) (elapsed : Nat → Rat) :
    Except String ChessMove × Nat :=
  llm_attempts provider legal_moves 3 resps elapsed 1 3

/-- Extract the controller state from a `play_game` outcome. -/
def GameOut.ctrl {E : Engine} : GameOut E → GameController E
  | .transcript _ c => c
  | .uncaught _ c => c
  | .fuel_out c => c

/-- The uncaught exception of a `play_game` outcome, when there is one. -/
def GameOut.uncaught_err {E : Engine} : GameOut E → Option PyErr
  | .uncaught e _ => some e
  | _ => none

/-- The returned transcript of a `play_game` outcome, when there is one. -/
def GameOut.returned {E : Engine} : GameOut E → Option String
  | .transcript s _ => some s
  | _ => none

/-- Toy rules engine used to evaluate the controller on concrete runs: the
position counts the pushed moves, the game is never over, and the single
legal move is `a2a3` with SAN `a3`. -/
def toyEngine : Engine where
  Pos := Nat
  start := 0
  turn := fun p => decide (p % 2 = 0)
  legal_moves := fun _ => ["a2a3"]
  push := fun p _ => p + 1
  is_game_over := fun _ => false
  is_checkmate := fun _ => false
  san := fun _ _ => "a3"
  parse_san := fun _ s => if s = "a3" then some "a2a3" else none
  from_uci := fun s => if s = "a2a3" then some s else none
  fen := fun p => toString p

/-- Toy rules engine whose initial position is already checkmate (the
position records only the side to move). -/
def mateEngine : Engine where
  Pos := Bool
  start := true
  turn := fun b => b
  legal_moves := fun _ => []
  push := fun b _ => !b
  is_game_over := fun _ => true
  is_checkmate := fun _ => true
  san := fun _ m => m
  parse_san := fun _ _ => none
  from_uci := fun _ => none
  fen := fun _ => ""

/-- A proposer reply that always proposes the toy engine's legal move
after one second of thinking. -/
def demo_reply : ChessMove :=
  { move := "a3", explanation := "develop", confidence := 9 / 10, thinking_time := 1 }

/-- Oracle under which every proposer call returns `demo_reply`. -/
def demo_oracle : Nat → TurnResp := fun _ => TurnResp.reply demo_reply

/-- A reply that reports fifteen seconds of thinking time. -/
def slow_reply : ChessMove :=
  { move := "a3", explanation := "deep think", confidence := 9 / 10, thinking_time := 15 }

/-- Oracle under which every proposer call returns `slow_reply`. -/
def slow_oracle : Nat → TurnResp := fun _ => TurnResp.reply slow_reply

/-- Scenario A state: untimed match over the toy engine with move limit 1. -/
def scenarioA : GameController toyEngine :=
  GameController.init toyEngine "OpenAILLM" "AnthropicLLM" none (some 1) "2024.01.01"

/-- Scenario D state: timed match (10 seconds per side) over the toy
engine, no move limit. -/
def scenarioD : GameController toyEngine :=
  GameController.init toyEngine "OpenAILLM" "AnthropicLLM" (some 10) none "2024.01.01"

/-- Normal-ending state: match over the engine whose initial position is
already checkmate. -/
def scenarioMate : GameController mateEngine :=
  GameController.init mateEngine "OpenAILLM" "AnthropicLLM" none none "2024.01.01"

/-- The controller state after the first loop iteration of Scenario A
(one legal move applied and its statistics recorded). -/
def scenarioA_step : GameController toyEngine :=
  match GameController.loop_iter scenarioA (demo_oracle 0) with
  | IterOut.next c => c
  | _ => scenarioA

/-- Projection of the white clock (0 when untimed; used only under a
`time_remaining = some` hypothesis). -/
def wclock {E : Engine} (c : GameController E) : Rat :=
  (c.time_remaining.getD (0, 0)).1

/-- Projection of the black clock. -/
def bclock {E : Engine} (c : GameController E) : Rat :=
  (c.time_remaining.getD (0, 0)).2

/-- Equality of two controller states on every component except the
`result` and `termination` entries of the statistics dict. -/
def eq_mod_rt {E : Engine} (c2 c : GameController E) : Prop :=
  c2.game = c.game ∧
  c2.move_times_white = c.move_times_white ∧
  c2.move_times_black = c.move_times_black ∧
  c2.max_moves = c.max_moves ∧
  c2.game_stats.total_moves = c.game_stats.total_moves ∧
  c2.game_stats.average_white = c.game_stats.average_white ∧
  c2.game_stats.average_black = c.game_stats.average_black ∧
  c2.game_stats.longest_white = c.game_stats.longest_white ∧
  c2.game_stats.longest_black = c.game_stats.longest_black

/-- The statistics invariant for one side: the recorded running average is
the arithmetic mean of the recorded samples, and the recorded longest
think time is an upper bound of the samples, equals 0 exactly when no
sample was recorded, and is attained by a sample otherwise. -/
def side_stats_ok (times : List Rat) (avg longest : Rat) : Prop :=
  avg = times.sum / ((times.length : Nat) : Rat) ∧
  (∀ x ∈ times, x ≤ longest) ∧
  (times = [] → longest = 0) ∧
  (times ≠ [] → longest ∈ times)
/-- Both-sides statistics invariant of a controller state. -/
def stats_ok {E : Engine} (c : GameController E) : Prop :=
  side_stats_ok c.move_times_white c.game_stats.average_white c.game_stats.longest_white ∧
  side_stats_ok c.move_times_black c.game_stats.average_black c.game_stats.longest_black
/-- The move-count invariant of C10. -/
def moves_ok {E : Engine} (c : GameController E) : Prop :=
  c.game_stats.total_moves = c.game.move_history.length
/-- Controller state with the `result` statistics key present, used to
exercise the export path that returns a transcript. -/
def exportDemo : GameController toyEngine :=
  { scenarioA with game_stats := { scenarioA.game_stats with
      result := some "1-0", termination := some "Normal chess ending" } }
/-- Adapter responses whose first attempt is unparsable JSON while every
later attempt would be a complete response proposing the legal move. -/
def malformed_resps : Nat → ApiResp := fun i =>
  if i = 1 then ApiResp.noParse "Expecting value"
  else ApiResp.parsed
    { move := some "e4", explanation := some "centre", confidence := some (1 / 2) }

/-- Adapter responses whose first attempt proposes an illegal move and is
missing the `explanation` and `confidence` keys, with complete legal
responses afterwards: the first response is retried because the adapters
test legality before reading the other keys. -/
def missing_fields_resps : Nat → ApiResp := fun i =>
  if i = 1 then ApiResp.parsed { move := some "zz9", explanation := none, confidence := none }
  else ApiResp.parsed
    { move := some "e4", explanation := some "centre", confidence := some (1 / 2) }
/-- Oracle under which every proposer call raises (as the adapters do on a
malformed response). -/
def raise_oracle : Nat → TurnResp := fun _ =>
  TurnResp.raise "Error calling Anthropic API: Invalid response format from Anthropic: Expecting value"

lemma eq_mod_rt_refl {E : Engine} (c : GameController E) : eq_mod_rt c c := by
  unfold eq_mod_rt; exact ⟨rfl, rfl, rfl, rfl, rfl, rfl, rfl, rfl, rfl⟩

lemma igf_error_mod {E : Engine} {c c2 : GameController E} {e : PyErr}
    (h : c.is_game_finished = Except.error (e, c2)) : eq_mod_rt c2 c := by
  unfold GameController.is_game_finished at h
  split at h
  · exact (Prod.mk.injEq _ _ _ _ ▸ (Except.error.injEq _ _ ▸ h)).elim
      (fun _ hc => by cases hc; exact ⟨rfl, rfl, rfl, rfl, rfl, rfl, rfl, rfl, rfl⟩)
  · split at h <;> cases h

lemma igf_ok_mod {E : Engine} {c c2 : GameController E} {b : Bool}
    (h : c.is_game_finished = Except.ok (b, c2)) : eq_mod_rt c2 c := by
  unfold GameController.is_game_finished at h
  split at h
  · cases h
  · split at h <;>
    · cases h
      exact ⟨rfl, rfl, rfl, rfl, rfl, rfl, rfl, rfl, rfl⟩

lemma igf_false {E : Engine} {c c2 : GameController E}
    (h : c.is_game_finished = Except.ok (false, c2)) : c2 = c := by
  unfold GameController.is_game_finished at h
  split at h
  · cases h
  · split at h
    · cases h
    · cases h; rfl

lemma make_move_fst_iff {E : Engine} (g : ChessGame E) (mu ms ex : String) :
    (g.make_move mu ms ex).1 = true ↔
      ∃ m, E.from_uci mu = some m ∧ m ∈ E.legal_moves g.board := by
  unfold ChessGame.make_move
  cases h : E.from_uci mu with
  | none => simp
  | some m =>
    by_cases hm : m ∈ E.legal_moves g.board <;> simp [hm]

lemma make_move_of_false {E : Engine} {g : ChessGame E} {mu ms ex : String}
    (h : (g.make_move mu ms ex).1 = false) : (g.make_move mu ms ex).2 = g := by
  unfold ChessGame.make_move at h ⊢
  cases hp : E.from_uci mu with
  | none => simp only [hp]
  | some m =>
    simp only [hp] at h ⊢
    by_cases hm : m ∈ E.legal_moves g.board
    · simp [hm] at h
    · simp [hm]

lemma make_move_of_legal {E : Engine} {g : ChessGame E} {mu ms ex m : String}
    (hp : E.from_uci mu = some m) (hm : m ∈ E.legal_moves g.board) :
    (g.make_move mu ms ex).1 = true ∧
    (g.make_move mu ms ex).2.board = E.push g.board m ∧
    (g.make_move mu ms ex).2.move_history = g.move_history ++ [(mu, ms, ex)] := by
  unfold ChessGame.make_move
  rw [hp]
  simp [hm]

lemma apply_fields {E : Engine} (c : GameController E) (m : ChessMove) :
    (c.get_next_move_apply m).2.time_remaining = c.time_remaining ∧
    (c.get_next_move_apply m).2.move_times_white = c.move_times_white ∧
    (c.get_next_move_apply m).2.move_times_black = c.move_times_black ∧
    (c.get_next_move_apply m).2.max_moves = c.max_moves ∧
    (c.get_next_move_apply m).2.game_stats = c.game_stats := by
  unfold GameController.get_next_move_apply
  cases hp : E.parse_san c.game.board m.move <;> simp

lemma apply_none {E : Engine} {c : GameController E} {m : ChessMove}
    (h : (c.get_next_move_apply m).1 = none) : (c.get_next_move_apply m).2 = c := by
  unfold GameController.get_next_move_apply at h ⊢
  cases hp : E.parse_san c.game.board m.move with
  | none => simp only [hp]
  | some u =>
    simp only [hp] at h ⊢
    by_cases hs : (c.game.make_move u m.move
        (m.explanation ++ " (confidence: " ++ fmt2 m.confidence ++ ")")).1 = true
    · simp [hs] at h
    · simp only [Bool.not_eq_true] at hs
      have hb := make_move_of_false hs
      simp [hs, hb]

lemma apply_some {E : Engine} {c : GameController E} {m m2 : ChessMove}
    (h : (c.get_next_move_apply m).1 = some m2) :
    m2.thinking_time = m.thinking_time ∧
    ∃ rec, (c.get_next_move_apply m).2.game.move_history =
      c.game.move_history ++ [rec] := by
  unfold GameController.get_next_move_apply at h ⊢
  cases hp : E.parse_san c.game.board m.move with
  | none => simp [hp] at h
  | some u =>
    simp only [hp] at h ⊢
    by_cases hs : (c.game.make_move u m.move
        (m.explanation ++ " (confidence: " ++ fmt2 m.confidence ++ ")")).1 = true
    · rcases (make_move_fst_iff c.game u m.move
        (m.explanation ++ " (confidence: " ++ fmt2 m.confidence ++ ")")).mp hs
        with ⟨mv, hpu, hmem⟩
      obtain ⟨-, -, hist⟩ := @make_move_of_legal E c.game u m.move
        (m.explanation ++ " (confidence: " ++ fmt2 m.confidence ++ ")") mv hpu hmem
      simp only [hs, if_true] at h
      cases h
      exact ⟨rfl, _, by simpa using hist⟩
    · simp only [Bool.not_eq_true] at hs
      simp [hs] at h

lemma gnm_raise {E : Engine} (c : GameController E) (w : Bool) (msg : String) :
    c.get_next_move w (TurnResp.raise msg) = (none, c) := rfl

lemma gnm_fields {E : Engine} (c : GameController E) (w : Bool) (resp : TurnResp) :
    (c.get_next_move w resp).2.move_times_white = c.move_times_white ∧
    (c.get_next_move w resp).2.move_times_black = c.move_times_black ∧
    (c.get_next_move w resp).2.max_moves = c.max_moves ∧
    (c.get_next_move w resp).2.game_stats.total_moves = c.game_stats.total_moves ∧
    (c.get_next_move w resp).2.game_stats.average_white = c.game_stats.average_white ∧
    (c.get_next_move w resp).2.game_stats.average_black = c.game_stats.average_black ∧
    (c.get_next_move w resp).2.game_stats.longest_white = c.game_stats.longest_white ∧
    (c.get_next_move w resp).2.game_stats.longest_black = c.game_stats.longest_black ∧
    (c.get_next_move w resp).2.game_stats.result = c.game_stats.result := by
  unfold GameController.get_next_move
  cases resp with
  | raise msg => exact ⟨rfl, rfl, rfl, rfl, rfl, rfl, rfl, rfl, rfl⟩
  | reply m =>
    cases htr : c.time_remaining with
    | none =>
      obtain ⟨-, h1, h2, h3, h4⟩ := apply_fields c m
      simp only []
      exact ⟨h1, h2, h3, by rw [h4], by rw [h4], by rw [h4], by rw [h4], by rw [h4], by rw [h4]⟩
    | some tr =>
      simp only []
      cases w with
      | true =>
        try simp only [Bool.false_eq_true, reduceIte]
        by_cases hc : tr.1 - m.thinking_time ≤ 0
        · rw [if_pos hc]
          exact ⟨rfl, rfl, rfl, rfl, rfl, rfl, rfl, rfl, rfl⟩
        · rw [if_neg hc]
          obtain ⟨-, h1, h2, h3, h4⟩ := apply_fields _ m
          exact ⟨h1, h2, h3, by rw [h4], by rw [h4], by rw [h4], by rw [h4], by rw [h4], by rw [h4]⟩
      | false =>
        try simp only [Bool.false_eq_true, reduceIte]
        by_cases hc : tr.2 - m.thinking_time ≤ 0
        · rw [if_pos hc]
          exact ⟨rfl, rfl, rfl, rfl, rfl, rfl, rfl, rfl, rfl⟩
        · rw [if_neg hc]
          obtain ⟨-, h1, h2, h3, h4⟩ := apply_fields _ m
          exact ⟨h1, h2, h3, by rw [h4], by rw [h4], by rw [h4], by rw [h4], by rw [h4], by rw [h4]⟩

lemma gnm_none_game {E : Engine} {c : GameController E} {w : Bool} {resp : TurnResp}
    (h : (c.get_next_move w resp).1 = none) :
    (c.get_next_move w resp).2.game = c.game := by
  unfold GameController.get_next_move at h ⊢
  cases resp with
  | raise msg => rfl
  | reply m =>
    cases htr : c.time_remaining with
    | none =>
      simp only [htr] at h ⊢
      rw [apply_none h]
    | some tr =>
      simp only [htr] at h ⊢
      cases w with
      | true =>
        try simp only [Bool.false_eq_true, reduceIte] at h ⊢
        by_cases hc : tr.1 - m.thinking_time ≤ 0
        · rw [if_pos hc]
        · rw [if_neg hc] at h ⊢
          rw [apply_none h]
      | false =>
        try simp only [Bool.false_eq_true, reduceIte] at h ⊢
        by_cases hc : tr.2 - m.thinking_time ≤ 0
        · rw [if_pos hc]
        · rw [if_neg hc] at h ⊢
          rw [apply_none h]

lemma gnm_some_spec {E : Engine} {c : GameController E} {w : Bool} {resp : TurnResp}
    {m2 : ChessMove} (h : (c.get_next_move w resp).1 = some m2) :
    ∃ m, resp = TurnResp.reply m ∧ m2.thinking_time = m.thinking_time ∧
      ∃ rec, (c.get_next_move w resp).2.game.move_history =
        c.game.move_history ++ [rec] := by
  unfold GameController.get_next_move at h ⊢
  cases resp with
  | raise msg => cases h
  | reply m =>
    refine ⟨m, rfl, ?_⟩
    cases htr : c.time_remaining with
    | none =>
      simp only [htr] at h ⊢
      obtain ⟨ht, rec, hrec⟩ := apply_some h
      exact ⟨ht, rec, hrec⟩
    | some tr =>
      simp only [htr] at h ⊢
      cases w with
      | true =>
        try simp only [Bool.false_eq_true, reduceIte] at h ⊢
        by_cases hc : tr.1 - m.thinking_time ≤ 0
        · rw [if_pos hc] at h
          exact Option.noConfusion h
        · rw [if_neg hc] at h ⊢
          obtain ⟨ht, rec, hrec⟩ := apply_some h
          exact ⟨ht, rec, hrec⟩
      | false =>
        try simp only [Bool.false_eq_true, reduceIte] at h ⊢
        by_cases hc : tr.2 - m.thinking_time ≤ 0
        · rw [if_pos hc] at h
          exact Option.noConfusion h
        · rw [if_neg hc] at h ⊢
          obtain ⟨ht, rec, hrec⟩ := apply_some h
          exact ⟨ht, rec, hrec⟩

lemma igf_error_time {E : Engine} {c c2 : GameController E} {e : PyErr}
    (h : c.is_game_finished = Except.error (e, c2)) :
    c2.time_remaining = c.time_remaining := by
  unfold GameController.is_game_finished at h
  split at h
  · cases h; rfl
  · split at h <;> cases h

lemma igf_ok_time {E : Engine} {c c2 : GameController E} {b : Bool}
    (h : c.is_game_finished = Except.ok (b, c2)) :
    c2.time_remaining = c.time_remaining := by
  unfold GameController.is_game_finished at h
  split at h
  · cases h
  · split at h <;> (cases h; rfl)

lemma gnm_clock {E : Engine} (c : GameController E) (w : Bool) (resp : TurnResp)
    {wv bv : Rat} (htr : c.time_remaining = some (wv, bv)) (hwp : 0 < wv) (hbp : 0 < bv)
    (hnn : ∀ m, resp = TurnResp.reply m → 0 ≤ m.thinking_time) :
    ∃ w2 b2, (c.get_next_move w resp).2.time_remaining = some (w2, b2) ∧
      w2 ≤ wv ∧ b2 ≤ bv ∧
      ((c.get_next_move w resp).1.isSome = true → 0 < w2 ∧ 0 < b2) := by
  unfold GameController.get_next_move
  cases resp with
  | raise msg =>
    exact ⟨wv, bv, htr, le_refl _, le_refl _, fun _ => ⟨hwp, hbp⟩⟩
  | reply m =>
    have ht0 : 0 ≤ m.thinking_time := hnn m rfl
    simp only [htr]
    cases w with
    | true =>
      try simp only [Bool.false_eq_true, reduceIte]
      by_cases hc : wv - m.thinking_time ≤ 0
      · rw [if_pos hc]
        exact ⟨wv - m.thinking_time, bv, rfl, by linarith, le_refl _,
          fun hcontra => Bool.noConfusion hcontra⟩
      · rw [if_neg hc]
        push_neg at hc
        obtain ⟨htr2, -, -, -, -⟩ := apply_fields
          { c with time_remaining := some (wv - m.thinking_time, bv) } m
        exact ⟨wv - m.thinking_time, bv, htr2, by linarith, le_refl _,
          fun _ => ⟨hc, hbp⟩⟩
    | false =>
      try simp only [Bool.false_eq_true, reduceIte]
      by_cases hc : bv - m.thinking_time ≤ 0
      · rw [if_pos hc]
        exact ⟨wv, bv - m.thinking_time, rfl, le_refl _, by linarith,
          fun hcontra => Bool.noConfusion hcontra⟩
      · rw [if_neg hc]
        push_neg at hc
        obtain ⟨htr2, -, -, -, -⟩ := apply_fields
          { c with time_remaining := some (wv, bv - m.thinking_time) } m
        exact ⟨wv, bv - m.thinking_time, htr2, le_refl _, by linarith,
          fun _ => ⟨hwp, hc⟩⟩

lemma gnm_time_none {E : Engine} (c : GameController E) (w : Bool) (resp : TurnResp)
    (htr : c.time_remaining = none) :
    (c.get_next_move w resp).2.time_remaining = none := by
  unfold GameController.get_next_move
  cases resp with
  | raise msg => exact htr
  | reply m =>
    simp only [htr]
    obtain ⟨htr2, -, -, -, -⟩ := apply_fields c m
    rw [htr2]
    exact htr

lemma update_stats_spec {E : Engine} (c : GameController E) (m : ChessMove) (w : Bool) :
    (c.update_stats m w).game = c.game ∧
    (c.update_stats m w).time_remaining = c.time_remaining ∧
    (c.update_stats m w).max_moves = c.max_moves ∧
    (c.update_stats m w).game_stats.total_moves = c.game_stats.total_moves + 1 ∧
    (c.update_stats m w).game_stats.result = c.game_stats.result ∧
    (c.update_stats m w).move_times_white =
      (if w then c.move_times_white ++ [m.thinking_time] else c.move_times_white) ∧
    (c.update_stats m w).move_times_black =
      (if w then c.move_times_black else c.move_times_black ++ [m.thinking_time]) ∧
    (c.update_stats m w).game_stats.average_white =
      (if w then (c.move_times_white ++ [m.thinking_time]).sum /
        (((c.move_times_white ++ [m.thinking_time]).length : Nat) : Rat)
       else c.game_stats.average_white) ∧
    (c.update_stats m w).game_stats.average_black =
      (if w then c.game_stats.average_black
       else (c.move_times_black ++ [m.thinking_time]).sum /
        (((c.move_times_black ++ [m.thinking_time]).length : Nat) : Rat)) ∧
    (c.update_stats m w).game_stats.longest_white =
      (if w then (if c.game_stats.longest_white < m.thinking_time then m.thinking_time
                  else c.game_stats.longest_white)
       else c.game_stats.longest_white) ∧
    (c.update_stats m w).game_stats.longest_black =
      (if w then c.game_stats.longest_black
       else (if c.game_stats.longest_black < m.thinking_time then m.thinking_time
             else c.game_stats.longest_black)) := by
  cases w <;> simp [GameController.update_stats]

lemma loop_iter_raised {E : Engine} {c c2 : GameController E} {resp : TurnResp} {e : PyErr}
    (h : GameController.loop_iter c resp = IterOut.raised e c2) :
    eq_mod_rt c2 c ∧ c2.time_remaining = c.time_remaining := by
  unfold GameController.loop_iter at h
  rcases higf : c.is_game_finished with ⟨e1, c1⟩ | ⟨b, c1⟩
  · simp only [higf] at h
    injection h with h1 h2
    subst h1; subst h2
    exact ⟨igf_error_mod higf, igf_error_time higf⟩
  · cases b with
    | true =>
      simp only [higf] at h
      exact IterOut.noConfusion h
    | false =>
      simp only [higf] at h
      rw [igf_false higf] at h
      rcases hg : (GameController.get_next_move c (E.turn c.game.board) resp) with ⟨mo, c3⟩
      simp only [hg] at h
      cases mo <;> exact IterOut.noConfusion h

lemma loop_iter_done {E : Engine} {c c2 : GameController E} {resp : TurnResp}
    (h : GameController.loop_iter c resp = IterOut.done c2) :
    eq_mod_rt c2 c := by
  unfold GameController.loop_iter at h
  rcases higf : c.is_game_finished with ⟨e1, c1⟩ | ⟨b, c1⟩
  · simp only [higf] at h
    exact IterOut.noConfusion h
  · cases b with
    | true =>
      simp only [higf] at h
      injection h with h1
      subst h1
      exact igf_ok_mod higf
    | false =>
      simp only [higf] at h
      rw [igf_false higf] at h
      rcases hg : (GameController.get_next_move c (E.turn c.game.board) resp) with ⟨mo, c3⟩
      simp only [hg] at h
      cases mo with
      | some m2 => exact IterOut.noConfusion h
      | none =>
        injection h with h1
        subst h1
        have hgame : c3.game = c.game := by
          have := @gnm_none_game E c (E.turn c.game.board) resp
            (by rw [hg])
          rw [hg] at this
          exact this
        obtain ⟨h1, h2, h3, h4, h5, h6, h7, h8, -⟩ :=
          gnm_fields c (E.turn c.game.board) resp
        rw [hg] at h1 h2 h3 h4 h5 h6 h7 h8
        exact ⟨hgame, h1, h2, h3, h4, h5, h6, h7, h8⟩

lemma loop_iter_next_spec {E : Engine} {c c2 : GameController E} {resp : TurnResp}
    (h : GameController.loop_iter c resp = IterOut.next c2) :
    ∃ t, (∃ m, resp = TurnResp.reply m ∧ t = m.thinking_time) ∧
      c2.game.move_history.length = c.game.move_history.length + 1 ∧
      c2.game_stats.total_moves = c.game_stats.total_moves + 1 ∧
      c2.max_moves = c.max_moves ∧
      c2.move_times_white =
        (if E.turn c.game.board then c.move_times_white ++ [t] else c.move_times_white) ∧
      c2.move_times_black =
        (if E.turn c.game.board then c.move_times_black else c.move_times_black ++ [t]) ∧
      c2.game_stats.average_white =
        (if E.turn c.game.board then
          (c.move_times_white ++ [t]).sum / (((c.move_times_white ++ [t]).length : Nat) : Rat)
         else c.game_stats.average_white) ∧
      c2.game_stats.average_black =
        (if E.turn c.game.board then c.game_stats.average_black
         else (c.move_times_black ++ [t]).sum / (((c.move_times_black ++ [t]).length : Nat) : Rat)) ∧
      c2.game_stats.longest_white =
        (if E.turn c.game.board then
          (if c.game_stats.longest_white < t then t else c.game_stats.longest_white)
         else c.game_stats.longest_white) ∧
      c2.game_stats.longest_black =
        (if E.turn c.game.board then c.game_stats.longest_black
         else (if c.game_stats.longest_black < t then t else c.game_stats.longest_black)) := by
  unfold GameController.loop_iter at h
  rcases higf : c.is_game_finished with ⟨e1, c1⟩ | ⟨b, c1⟩
  · simp only [higf] at h
    exact IterOut.noConfusion h
  · cases b with
    | true =>
      simp only [higf] at h
      exact IterOut.noConfusion h
    | false =>
      simp only [higf] at h
      rw [igf_false higf] at h
      rcases hg : (GameController.get_next_move c (E.turn c.game.board) resp) with ⟨mo, c3⟩
      simp only [hg] at h
      cases mo with
      | none => exact IterOut.noConfusion h
      | some m2 =>
        injection h with h1
        subst h1
        have hfst : (c.get_next_move (E.turn c.game.board) resp).1 = some m2 := by
          rw [hg]
        obtain ⟨m, hreply, htt, rec, hrec⟩ := gnm_some_spec hfst
        rw [hg] at hrec
        obtain ⟨u1, -, u3, u4, -, u6, u7, u8, u9, u10, u11⟩ :=
          update_stats_spec c3 m2 (E.turn c.game.board)
        obtain ⟨f1, f2, f3, f4, f5, f6, f7, f8, -⟩ :=
          gnm_fields c (E.turn c.game.board) resp
        rw [hg] at f1 f2 f3 f4 f5 f6 f7 f8
        refine ⟨m2.thinking_time, ⟨m, hreply, htt⟩, ?_, ?_, ?_, ?_, ?_, ?_, ?_, ?_, ?_⟩
        · rw [u1, hrec]
          simp
        · rw [u4, f4]
        · rw [u3, f3]
        · rw [u6, f1]
        · rw [u7, f2]
        · rw [u8, f1, f5]
        · rw [u9, f2, f6]
        · rw [u10, f7]
        · rw [u11, f8]

lemma loop_iter_clock {E : Engine} (c : GameController E) (resp : TurnResp)
    {wv bv : Rat} (htr : c.time_remaining = some (wv, bv)) (hwp : 0 < wv) (hbp : 0 < bv)
    (hnn : ∀ m, resp = TurnResp.reply m → 0 ≤ m.thinking_time) :
    (∀ e c2, GameController.loop_iter c resp = IterOut.raised e c2 →
       c2.time_remaining = some (wv, bv)) ∧
    (∀ c2, GameController.loop_iter c resp = IterOut.done c2 →
       ∃ w2 b2, c2.time_remaining = some (w2, b2) ∧ w2 ≤ wv ∧ b2 ≤ bv) ∧
    (∀ c2, GameController.loop_iter c resp = IterOut.next c2 →
       ∃ w2 b2, c2.time_remaining = some (w2, b2) ∧ w2 ≤ wv ∧ b2 ≤ bv ∧
         0 < w2 ∧ 0 < b2) := by
  unfold GameController.loop_iter
  rcases higf : c.is_game_finished with ⟨e1, c1⟩ | ⟨b, c1⟩
  · refine ⟨?_, ?_, ?_⟩
    · intro e c2 h
      simp only [higf] at h
      injection h with h1 h2
      subst h2
      rw [igf_error_time higf]
      exact htr
    · intro c2 h
      simp only [higf] at h
      exact IterOut.noConfusion h
    · intro c2 h
      simp only [higf] at h
      exact IterOut.noConfusion h
  · cases b with
    | true =>
      refine ⟨?_, ?_, ?_⟩
      · intro e c2 h
        simp only [higf] at h
        exact IterOut.noConfusion h
      · intro c2 h
        simp only [higf] at h
        injection h with h1
        subst h1
        rw [igf_ok_time higf, htr]
        exact ⟨wv, bv, rfl, le_refl _, le_refl _⟩
      · intro c2 h
        simp only [higf] at h
        exact IterOut.noConfusion h
    | false =>
      obtain ⟨w2, b2, htr2, hw2, hb2, hpos⟩ :=
        gnm_clock c (E.turn c.game.board) resp htr hwp hbp hnn
      refine ⟨?_, ?_, ?_⟩
      · intro e c2 h
        simp only [higf] at h
        rw [igf_false higf] at h
        rcases hg : (GameController.get_next_move c (E.turn c.game.board) resp)
          with ⟨mo, c3⟩
        simp only [hg] at h
        cases mo <;> exact IterOut.noConfusion h
      · intro c2 h
        simp only [higf] at h
        rw [igf_false higf] at h
        rcases hg : (GameController.get_next_move c (E.turn c.game.board) resp)
          with ⟨mo, c3⟩
        simp only [hg] at h
        cases mo with
        | some m2 => exact IterOut.noConfusion h
        | none =>
          injection h with h1
          subst h1
          rw [hg] at htr2
          exact ⟨w2, b2, htr2, hw2, hb2⟩
      · intro c2 h
        simp only [higf] at h
        rw [igf_false higf] at h
        rcases hg : (GameController.get_next_move c (E.turn c.game.board) resp)
          with ⟨mo, c3⟩
        simp only [hg] at h
        cases mo with
        | none => exact IterOut.noConfusion h
        | some m2 =>
          injection h with h1
          subst h1
          have hsome : (GameController.get_next_move c (E.turn c.game.board) resp).1.isSome
              = true := by
            rw [hg]; rfl
          obtain ⟨hpw, hpb⟩ := hpos hsome
          rw [hg] at htr2
          obtain ⟨-, hu2, -⟩ := update_stats_spec c3 m2 (E.turn c.game.board)
          rw [hu2, htr2]
          exact ⟨w2, b2, rfl, hw2, hb2, hpw, hpb⟩

lemma play_trace_cons {E : Engine} (fuel : Nat) (c : GameController E)
    (oracle : Nat → TurnResp) (k : Nat) :
    ∃ l, GameController.play_trace fuel c oracle k = c :: l := by
  cases fuel with
  | zero => exact ⟨[], rfl⟩
  | succ f =>
    unfold GameController.play_trace
    cases GameController.loop_iter c (oracle k) <;> exact ⟨_, rfl⟩

lemma play_trace_inv {E : Engine} (P : GameController E → Prop) (oracle : Nat → TurnResp)
    (hraised : ∀ c k e c2, GameController.loop_iter c (oracle k) = IterOut.raised e c2 →
       P c → P c2)
    (hdone : ∀ c k c2, GameController.loop_iter c (oracle k) = IterOut.done c2 → P c → P c2)
    (hnext : ∀ c k c2, GameController.loop_iter c (oracle k) = IterOut.next c2 → P c → P c2) :
    ∀ fuel (c : GameController E) k, P c →
      ∀ c2 ∈ GameController.play_trace fuel c oracle k, P c2 := by
  intro fuel
  induction fuel with
  | zero =>
    intro c k hP c2 hc2
    unfold GameController.play_trace at hc2
    simp only [List.mem_singleton] at hc2
    subst hc2
    exact hP
  | succ f ih =>
    intro c k hP c2 hc2
    unfold GameController.play_trace at hc2
    cases hit : GameController.loop_iter c (oracle k) with
    | raised e c3 =>
      rw [hit] at hc2
      simp only [List.mem_cons, List.mem_singleton, List.not_mem_nil, or_false] at hc2
      rcases hc2 with hc2 | hc2 <;> subst hc2
      · exact hP
      · exact hraised c k e _ hit hP
    | done c3 =>
      rw [hit] at hc2
      simp only [List.mem_cons, List.mem_singleton, List.not_mem_nil, or_false] at hc2
      rcases hc2 with hc2 | hc2 <;> subst hc2
      · exact hP
      · exact hdone c k _ hit hP
    | next c3 =>
      rw [hit] at hc2
      simp only [List.mem_cons] at hc2
      rcases hc2 with hc2 | hc2
      · subst hc2
        exact hP
      · exact ih c3 (k + 1) (hnext c k _ hit hP) c2 hc2

lemma play_trace_clock {E : Engine} (oracle : Nat → TurnResp)
    (hnn : ∀ n m, oracle n = TurnResp.reply m → 0 ≤ m.thinking_time) :
    ∀ fuel (c : GameController E) k wv bv,
      c.time_remaining = some (wv, bv) → 0 < wv → 0 < bv →
      List.Chain' (fun a b => wclock b ≤ wclock a ∧ bclock b ≤ bclock a)
        (GameController.play_trace fuel c oracle k) ∧
      (∀ c2 ∈ GameController.play_trace fuel c oracle k,
        c2.time_remaining.isSome = true) ∧
      (∀ c2 ∈ (GameController.play_trace fuel c oracle k).dropLast,
        0 < wclock c2 ∧ 0 < bclock c2) := by
  intro fuel
  induction fuel with
  | zero =>
    intro c k wv bv htr hwp hbp
    unfold GameController.play_trace
    refine ⟨List.chain'_singleton c, ?_, ?_⟩
    · intro c2 hc2
      simp only [List.mem_singleton] at hc2
      subst hc2
      rw [htr]
      rfl
    · intro c2 hc2
      simp at hc2
  | succ f ih =>
    intro c k wv bv htr hwp hbp
    have hwc : wclock c = wv := by unfold wclock; rw [htr]; rfl
    have hbc : bclock c = bv := by unfold bclock; rw [htr]; rfl
    obtain ⟨hraised, hdone, hnext⟩ := loop_iter_clock c (oracle k) htr hwp hbp
      (fun m hm => hnn k m hm)
    unfold GameController.play_trace
    cases hit : GameController.loop_iter c (oracle k) with
    | raised e c3 =>
      have h3 := hraised e c3 hit
      have hwc3 : wclock c3 = wv := by unfold wclock; rw [h3]; rfl
      have hbc3 : bclock c3 = bv := by unfold bclock; rw [h3]; rfl
      refine ⟨?_, ?_, ?_⟩
      · exact List.chain'_cons.mpr
          ⟨⟨le_of_eq (hwc3.trans hwc.symm), le_of_eq (hbc3.trans hbc.symm)⟩,
            List.chain'_singleton c3⟩
      · intro c2 hc2
        simp only [List.mem_cons, List.mem_singleton, List.not_mem_nil, or_false] at hc2
        rcases hc2 with hc2 | hc2 <;> subst hc2
        · rw [htr]; rfl
        · rw [h3]; rfl
      · intro c2 hc2
        have hdl : ([c, c3] : List (GameController E)).dropLast = [c] := rfl
        rw [hdl] at hc2
        simp only [List.mem_singleton] at hc2
        subst hc2
        exact ⟨hwc ▸ hwp, hbc ▸ hbp⟩
    | done c3 =>
      obtain ⟨w2, b2, h3, hw2, hb2⟩ := hdone c3 hit
      have hwc3 : wclock c3 = w2 := by unfold wclock; rw [h3]; rfl
      have hbc3 : bclock c3 = b2 := by unfold bclock; rw [h3]; rfl
      refine ⟨?_, ?_, ?_⟩
      · refine List.chain'_cons.mpr ⟨⟨?_, ?_⟩, List.chain'_singleton c3⟩
        · rw [hwc3, hwc]; exact hw2
        · rw [hbc3, hbc]; exact hb2
      · intro c2 hc2
        simp only [List.mem_cons, List.mem_singleton, List.not_mem_nil, or_false] at hc2
        rcases hc2 with hc2 | hc2 <;> subst hc2
        · rw [htr]; rfl
        · rw [h3]; rfl
      · intro c2 hc2
        have hdl : ([c, c3] : List (GameController E)).dropLast = [c] := rfl
        rw [hdl] at hc2
        simp only [List.mem_singleton] at hc2
        subst hc2
        exact ⟨hwc ▸ hwp, hbc ▸ hbp⟩
    | next c3 =>
      obtain ⟨w2, b2, h3, hw2, hb2, hpw, hpb⟩ := hnext c3 hit
      have hwc3 : wclock c3 = w2 := by unfold wclock; rw [h3]; rfl
      have hbc3 : bclock c3 = b2 := by unfold bclock; rw [h3]; rfl
      obtain ⟨ihchain, ihsome, ihpos⟩ := ih c3 (k + 1) w2 b2 h3 hpw hpb
      obtain ⟨l, hl⟩ := play_trace_cons f c3 oracle (k + 1)
      refine ⟨?_, ?_, ?_⟩
      · show List.Chain' (fun a b => wclock b ≤ wclock a ∧ bclock b ≤ bclock a)
          (c :: GameController.play_trace f c3 oracle (k + 1))
        rw [hl]
        rw [hl] at ihchain
        exact List.chain'_cons.mpr
          ⟨⟨by rw [hwc3, hwc]; exact hw2, by rw [hbc3, hbc]; exact hb2⟩, ihchain⟩
      · intro c2 hc2
        have hc2b : c2 ∈ c :: GameController.play_trace f c3 oracle (k + 1) := hc2
        simp only [List.mem_cons] at hc2b
        rcases hc2b with hc2b | hc2b
        · subst hc2b; rw [htr]; rfl
        · exact ihsome c2 hc2b
      · intro c2 hc2
        have hc2b : c2 ∈ (c :: GameController.play_trace f c3 oracle (k + 1)).dropLast := hc2
        rw [hl] at hc2b
        have hdl : (c :: c3 :: l).dropLast = c :: (c3 :: l).dropLast := rfl
        rw [hdl] at hc2b
        simp only [List.mem_cons] at hc2b
        rcases hc2b with hc2b | hc2b
        · subst hc2b
          exact ⟨hwc ▸ hwp, hbc ▸ hbp⟩
        · rw [← hl] at hc2b
          exact ihpos c2 hc2b

lemma export_game_ok {E : Engine} (c : GameController E) (r : String)
    (h : c.game_stats.result = some r) :
    ∃ s, c.export_game = Except.ok (s, c) := by
  unfold GameController.export_game
  simp only [h]
  exact ⟨_, rfl⟩

lemma side_stats_update {times : List Rat} {longest : Rat} (t : Rat)
    (hub : ∀ x ∈ times, x ≤ longest) (hemp : times = [] → longest = 0)
    (hmem : times ≠ [] → longest ∈ times) (ht : 0 ≤ t) :
    side_stats_ok (times ++ [t])
      ((times ++ [t]).sum / (((times ++ [t]).length : Nat) : Rat))
      (if longest < t then t else longest) := by
  refine ⟨rfl, ?_, ?_, ?_⟩
  · intro x hx
    rcases List.mem_append.mp hx with hx | hx
    · by_cases hlt : longest < t
      · rw [if_pos hlt]
        exact le_of_lt (lt_of_le_of_lt (hub x hx) hlt)
      · rw [if_neg hlt]
        exact hub x hx
    · simp only [List.mem_singleton] at hx
      rw [hx]
      by_cases hlt : longest < t
      · rw [if_pos hlt]
      · rw [if_neg hlt]
        exact le_of_not_lt hlt
  · intro habs
    exact absurd habs (by simp)
  · intro hnonempty
    by_cases hlt : longest < t
    · rw [if_pos hlt]
      exact List.mem_append.mpr (Or.inr (by simp))
    · rw [if_neg hlt]
      by_cases he : times = []
      · have h0 : longest = 0 := hemp he
        have ht0 : t ≤ longest := le_of_not_lt hlt
        have : t = 0 := le_antisymm (h0 ▸ ht0) ht
        rw [h0, ← this]
        exact List.mem_append.mpr (Or.inr (by simp))
      · exact List.mem_append.mpr (Or.inl (hmem he))

lemma stats_ok_of_eq_mod_rt {E : Engine} {c c2 : GameController E}
    (h : eq_mod_rt c2 c) (hok : stats_ok c) : stats_ok c2 := by
  obtain ⟨-, h1, h2, -, -, h5, h6, h7, h8⟩ := h
  unfold stats_ok
  rw [h1, h2, h5, h6, h7, h8]
  exact hok

lemma moves_ok_of_eq_mod_rt {E : Engine} {c c2 : GameController E}
    (h : eq_mod_rt c2 c) (hok : moves_ok c) : moves_ok c2 := by
  obtain ⟨h0, -, -, -, h4, -⟩ := h
  unfold moves_ok
  rw [h0, h4]
  exact hok

lemma stats_ok_next {E : Engine} {c c2 : GameController E} {resp : TurnResp}
    (h : GameController.loop_iter c resp = IterOut.next c2)
    (hnn : ∀ m, resp = TurnResp.reply m → 0 ≤ m.thinking_time)
    (hok : stats_ok c) : stats_ok c2 := by
  obtain ⟨t, ⟨m, hreply, ht⟩, -, -, -, hmw, hmb, haw, hab, hlw, hlb⟩ :=
    loop_iter_next_spec h
  have ht0 : 0 ≤ t := ht ▸ hnn m hreply
  unfold stats_ok
  cases htn : E.turn c.game.board with
  | true =>
    rw [htn] at hmw hmb haw hab hlw hlb
    try simp only [Bool.false_eq_true, reduceIte] at hmw hmb haw hab hlw hlb
    rw [hmw, hmb, haw, hab, hlw, hlb]
    obtain ⟨⟨-, wub, wemp, wmem⟩, hb⟩ := hok
    exact ⟨side_stats_update t wub wemp wmem ht0, hb⟩
  | false =>
    rw [htn] at hmw hmb haw hab hlw hlb
    try simp only [Bool.false_eq_true, reduceIte] at hmw hmb haw hab hlw hlb
    rw [hmw, hmb, haw, hab, hlw, hlb]
    obtain ⟨hw, ⟨-, bub, bemp, bmem⟩⟩ := hok
    exact ⟨hw, side_stats_update t bub bemp bmem ht0⟩

lemma moves_ok_next {E : Engine} {c c2 : GameController E} {resp : TurnResp}
    (h : GameController.loop_iter c resp = IterOut.next c2)
    (hok : moves_ok c) : moves_ok c2 := by
  obtain ⟨t, -, hlen, htot, -⟩ := loop_iter_next_spec h
  unfold moves_ok
  rw [htot, hlen]
  unfold moves_ok at hok
  rw [hok]

lemma play_trace_stats {E : Engine} (oracle : Nat → TurnResp)
    (hnn : ∀ n m, oracle n = TurnResp.reply m → 0 ≤ m.thinking_time) :
    ∀ fuel (c : GameController E) k, stats_ok c →
      ∀ c2 ∈ GameController.play_trace fuel c oracle k, stats_ok c2 :=
  play_trace_inv stats_ok oracle
    (fun _ _ _ _ hit => stats_ok_of_eq_mod_rt (loop_iter_raised hit).1)
    (fun _ _ _ hit => stats_ok_of_eq_mod_rt (loop_iter_done hit))
    (fun _ k _ hit hok => stats_ok_next hit (fun m hm => hnn k m hm) hok)

lemma play_trace_moves {E : Engine} (oracle : Nat → TurnResp) :
    ∀ fuel (c : GameController E) k, moves_ok c →
      ∀ c2 ∈ GameController.play_trace fuel c oracle k, moves_ok c2 :=
  play_trace_inv moves_ok oracle
    (fun _ _ _ _ hit => moves_ok_of_eq_mod_rt (loop_iter_raised hit).1)
    (fun _ _ _ hit => moves_ok_of_eq_mod_rt (loop_iter_done hit))
    (fun _ _ _ hit hok => moves_ok_next hit hok)

lemma init_stats_ok (E : Engine) (wn bn : String) (tc : Option Rat)
    (mm : Option Nat) (sd : String) :
    stats_ok (GameController.init E wn bn tc mm sd) := by
  unfold GameController.init stats_ok side_stats_ok
  refine ⟨⟨?_, ?_, ?_, ?_⟩, ⟨?_, ?_, ?_, ?_⟩⟩ <;> simp

lemma init_moves_ok (E : Engine) (wn bn : String) (tc : Option Rat)
    (mm : Option Nat) (sd : String) :
    moves_ok (GameController.init E wn bn tc mm sd) := rfl

lemma getD_forall {α : Type} (P : α → Prop) (l : List α) (d : α)
    (hall : ∀ x ∈ l, P x) (hd : P d) : ∀ i, P (l.getD i d) := by
  intro i
  rw [List.getD_eq_getElem?_getD]
  by_cases hi : i < l.length
  · rw [List.getElem?_eq_getElem hi]
    exact hall _ (List.getElem_mem _)
  · rw [List.getElem?_eq_none (le_of_not_lt hi)]
    exact hd

/-- C1: the claim says `play_game` always returns a rendered transcript
with a definite termination reason and never propagates an exception.
The code violates this: on a match whose position is a normal chess
ending, `_is_game_finished` calls the string-valued property
`self.game.result` (a `TypeError`), the handler catches it, and
`export_game` then raises `KeyError` on the absent `result` key — which
escapes `play_game` with no transcript returned.  This contradicts the
method docstring and the repository's own controller test, so it is a
bug in the code rather than in the claim. -/
theorem C1_normal_ending_uncaught_keyerror :
    (GameController.play_game 1 scenarioMate demo_oracle).uncaught_err
        = some (PyErr.keyError "result") ∧
    (GameController.play_game 1 scenarioMate demo_oracle).returned = none ∧
    (GameController.play_game 1 scenarioMate demo_oracle).ctrl.game_stats.termination
        = some "Error: \x27str\x27 object is not callable" := by
  with_unfolding_all decide

/-- C2 counterexample: a timed match with 10 seconds on each clock whose
proposer reports 15 seconds of thinking time.  Contrary to the claim, the
legal move is NOT applied or recorded (the move history stays empty), and
the final termination reason is the overwritten `"Invalid move by
white"`, not a time-forfeit reason — though the clock did go to -5 and a
transcript is returned. -/
theorem C2_counterexample :
    (GameController.play_game 3 scenarioD slow_oracle).ctrl.game.move_history = [] ∧
    (GameController.play_game 3 scenarioD slow_oracle).ctrl.game_stats.termination
        = some "Invalid move by white" ∧
    (GameController.play_game 3 scenarioD slow_oracle).ctrl.game_stats.termination
        ≠ some "white lost on time" ∧
    (GameController.play_game 3 scenarioD slow_oracle).ctrl.time_remaining
        = some (-5, 10) ∧
    (GameController.play_game 3 scenarioD slow_oracle).returned.isSome = true := by
  with_unfolding_all decide

/-- C2 (amended): when charging a side's thinking time drives its clock to
zero or below, `_get_next_move` returns before parsing or applying the
move, so the turn does NOT count: the game state is unchanged, the match
ends with the opponent recorded as winner, the `"{color} lost on time"`
reason is overwritten by `"Invalid move by {color}"`, and a transcript is
rendered. -/
theorem C2_amended {E : Engine} (c : GameController E) (oracle : Nat → TurnResp)
    (k fuel : Nat) (m : ChessMove) (w b : Rat)
    (horacle : oracle k = TurnResp.reply m)
    (hno : E.is_game_over c.game.board = false)
    (hmm : c.max_moves_hit = false)
    (htr : c.time_remaining = some (w, b))
    (hex : (if E.turn c.game.board then w - m.thinking_time else b - m.thinking_time) ≤ 0) :
    ∃ c2, GameController.play_loop (fuel + 1) c oracle k = LoopOut.finished c2 ∧
      c2.game = c.game ∧
      c2.time_remaining = some (if E.turn c.game.board then (w - m.thinking_time, b)
        else (w, b - m.thinking_time)) ∧
      c2.game_stats.result = some (if E.turn c.game.board then "0-1" else "1-0") ∧
      c2.game_stats.termination =
        some ("Invalid move by " ++ color_name (E.turn c.game.board)) ∧
      ∃ s, c2.export_game = Except.ok (s, c2) := by
  have higf : c.is_game_finished = Except.ok (false, c) := by
    unfold GameController.is_game_finished ChessGame.is_game_over
    simp only [hno, hmm, Bool.false_eq_true, reduceIte]
  have hli : GameController.loop_iter c (oracle k) =
      IterOut.done { c with
        time_remaining := some (if E.turn c.game.board then (w - m.thinking_time, b)
          else (w, b - m.thinking_time)),
        game_stats := { c.game_stats with
          result := some (if E.turn c.game.board then "0-1" else "1-0"),
          termination := some ("Invalid move by " ++ color_name (E.turn c.game.board)) } } := by
    rw [horacle]
    unfold GameController.loop_iter
    rw [higf]
    simp only []
    unfold GameController.get_next_move
    simp only [htr]
    cases hw : E.turn c.game.board with
    | true =>
      rw [hw] at hex
      try simp only [Bool.false_eq_true, reduceIte] at hex ⊢
      rw [if_pos hex]
    | false =>
      rw [hw] at hex
      try simp only [Bool.false_eq_true, reduceIte] at hex ⊢
      rw [if_pos hex]
  refine ⟨{ c with
      time_remaining := some (if E.turn c.game.board then (w - m.thinking_time, b)
        else (w, b - m.thinking_time)),
      game_stats := { c.game_stats with
        result := some (if E.turn c.game.board then "0-1" else "1-0"),
        termination := some ("Invalid move by " ++ color_name (E.turn c.game.board)) } },
    ?_, rfl, rfl, rfl, rfl, export_game_ok _ _ rfl⟩
  simp only [GameController.play_loop, hli]

/-- C2 amended, witnessed on the concrete Scenario D run: timed match with
10 seconds, reply reporting 15 seconds of thinking. -/
theorem C2_amended_witness :
    ∃ c2, GameController.play_loop 1 scenarioD slow_oracle 0 = LoopOut.finished c2 ∧
      c2.game = scenarioD.game ∧
      c2.time_remaining = some (if toyEngine.turn scenarioD.game.board
        then (10 - slow_reply.thinking_time, 10) else (10, 10 - slow_reply.thinking_time)) ∧
      c2.game_stats.result = some (if toyEngine.turn scenarioD.game.board then "0-1" else "1-0") ∧
      c2.game_stats.termination =
        some ("Invalid move by " ++ color_name (toyEngine.turn scenarioD.game.board)) ∧
      ∃ s, c2.export_game = Except.ok (s, c2) :=
  C2_amended scenarioD slow_oracle 0 0 slow_reply 10 10 rfl rfl rfl
    (by with_unfolding_all rfl) (by with_unfolding_all decide)

/-- C3: the claim says a match reaching the configured move limit ends
with a max-moves termination and a draw result.  The code does record the
termination reason but never assigns a draw result, and `export_game`
then raises `KeyError` on the absent `result` key, which escapes
`play_game`: no transcript is produced at all.  The `max_moves` parameter
is documented in the code as "Maximum number of moves before draw" and
the repository's controller test expects a returned PGN, so this is a bug
in the code rather than in the claim.  Scenario A (untimed, move limit 1,
always-legal proposers): exactly one move is played and recorded, then
the `KeyError` escapes. -/
theorem C3_max_moves_uncaught_keyerror :
    (GameController.play_game 3 scenarioA demo_oracle).uncaught_err
        = some (PyErr.keyError "result") ∧
    (GameController.play_game 3 scenarioA demo_oracle).returned = none ∧
    (GameController.play_game 3 scenarioA demo_oracle).ctrl.game.move_history.length = 1 ∧
    (GameController.play_game 3 scenarioA demo_oracle).ctrl.game_stats.total_moves = 1 ∧
    (GameController.play_game 3 scenarioA demo_oracle).ctrl.game_stats.result = none := by
  with_unfolding_all decide

/-- C4 counterexample: with an unparsable-JSON first response (and
complete legal replies available on the later attempts), the adapter
raises after exactly one attempt instead of retrying up to the bound of
3, refuting the claim that a structurally malformed response is retried
with an unchanged request until the bound is exhausted. -/
theorem C4_counterexample :
    llm_get_next_move "Anthropic" ["e4"] malformed_resps (fun _ => 2) =
      (Except.error
        "Error calling Anthropic API: Invalid response format from Anthropic: Expecting value",
       1) := by
  rfl

/-- C4 (amended): whether a structurally malformed response is retried
follows the order in which the adapters read it.  Unparsable JSON and a
missing `move` key raise immediately on their first occurrence (one
attempt consumed, independent of later responses).  A parsed response
whose `move` field proposes an illegal move IS retried while attempts
remain, even when its `explanation` and `confidence` fields are missing,
because the legality test `result["move"] not in legal_moves and
i < retries` runs before those keys are read.  Only on the return path
(legal move, or the last attempt) does a missing `explanation` raise.
In every raising case the controller catches the exception and the turn
escalates to a forfeit of the active side with a rendered transcript. -/
theorem C4_amended {E : Engine} (provider raise_msg : String)
    (legal_moves : List String) (resps : Nat → ApiResp) (elapsed : Nat → Rat)
    (f2 : Nat) (c : GameController E) (oracle : Nat → TurnResp) (k : Nat)
    (horacle : oracle k = TurnResp.raise raise_msg)
    (hno : E.is_game_over c.game.board = false)
    (hmax : c.max_moves_hit = false) :
    (∀ i fuel msg, resps i = ApiResp.noParse msg →
      llm_attempts provider legal_moves 3 resps elapsed i (fuel + 1) =
        (Except.error ("Error calling " ++ provider ++ " API: " ++
          "Invalid response format from " ++ provider ++ ": " ++ msg), i)) ∧
    (∀ i fuel j, resps i = ApiResp.parsed j → j.move = none →
      llm_attempts provider legal_moves 3 resps elapsed i (fuel + 1) =
        (Except.error ("Error calling " ++ provider ++ " API: " ++
          "Invalid response format from " ++ provider ++ ": \x27move\x27"), i)) ∧
    (∀ i fuel j mv, resps i = ApiResp.parsed j → j.move = some mv →
      mv ∉ legal_moves → i < 3 →
      llm_attempts provider legal_moves 3 resps elapsed i (fuel + 1) =
        llm_attempts provider legal_moves 3 resps elapsed (i + 1) fuel) ∧
    (∀ i fuel j mv, resps i = ApiResp.parsed j → j.move = some mv →
      mv ∈ legal_moves ∨ ¬ i < 3 → j.explanation = none →
      llm_attempts provider legal_moves 3 resps elapsed i (fuel + 1) =
        (Except.error ("Error calling " ++ provider ++ " API: " ++
          "Invalid response format from " ++ provider ++ ": \x27explanation\x27"), i)) ∧
    (∃ c2, GameController.play_loop (f2 + 1) c oracle k = LoopOut.finished c2 ∧
      c2.game = c.game ∧ c2.time_remaining = c.time_remaining ∧
      c2.game_stats.result = some (if E.turn c.game.board then "0-1" else "1-0") ∧
      c2.game_stats.termination =
        some ("Invalid move by " ++ color_name (E.turn c.game.board)) ∧
      ∃ s, c2.export_game = Except.ok (s, c2)) := by
  refine ⟨?_, ?_, ?_, ?_, ?_⟩
  · intro i fuel msg h
    unfold llm_attempts
    simp only [h]
  · intro i fuel j h hm
    unfold llm_attempts
    simp only [h, hm]
  · intro i fuel j mv h hm hnot hlt
    conv_lhs => unfold llm_attempts
    simp only [h, hm]
    rw [if_pos ⟨hnot, hlt⟩]
  · intro i fuel j mv h hm hor hexp
    have hcond : ¬ (mv ∉ legal_moves ∧ i < 3) := by
      intro hand
      rcases hor with hmem | hge
      · exact hand.1 hmem
      · exact hge hand.2
    unfold llm_attempts
    simp only [h, hm]
    rw [if_neg hcond]
    simp only [hexp]
  · have higf : c.is_game_finished = Except.ok (false, c) := by
      unfold GameController.is_game_finished ChessGame.is_game_over
      simp only [hno, hmax, Bool.false_eq_true, reduceIte]
    have hli : GameController.loop_iter c (oracle k) =
        IterOut.done { c with game_stats := { c.game_stats with
          result := some (if E.turn c.game.board then "0-1" else "1-0"),
          termination := some ("Invalid move by " ++ color_name (E.turn c.game.board)) } } := by
      rw [horacle]
      unfold GameController.loop_iter
      rw [higf]
      rfl
    refine ⟨{ c with game_stats := { c.game_stats with
        result := some (if E.turn c.game.board then "0-1" else "1-0"),
        termination := some ("Invalid move by " ++ color_name (E.turn c.game.board)) } },
      ?_, rfl, rfl, rfl, rfl, export_game_ok _ _ rfl⟩
    simp only [GameController.play_loop, hli]

/-- C4 amended, witnessed: the response stream whose first attempt has an
illegal move with the other fields missing is retried and succeeds on
attempt 2 (first conjunct, evaluated), and the amended theorem is
instantiated at that stream with a raising proposer and the Scenario A
controller. -/
theorem C4_amended_witness :
    (llm_attempts "Anthropic" ["e4"] 3 missing_fields_resps (fun _ => 2) 1 3 =
      (Except.ok { move := "e4", explanation := "centre", confidence := 1 / 2,
                   thinking_time := 2 }, 2)) ∧
    ((∀ i fuel msg, missing_fields_resps i = ApiResp.noParse msg →
      llm_attempts "Anthropic" ["e4"] 3 missing_fields_resps (fun _ => 2) i (fuel + 1) =
        (Except.error ("Error calling " ++ "Anthropic" ++ " API: " ++
          "Invalid response format from " ++ "Anthropic" ++ ": " ++ msg), i)) ∧
    (∀ i fuel j, missing_fields_resps i = ApiResp.parsed j → j.move = none →
      llm_attempts "Anthropic" ["e4"] 3 missing_fields_resps (fun _ => 2) i (fuel + 1) =
        (Except.error ("Error calling " ++ "Anthropic" ++ " API: " ++
          "Invalid response format from " ++ "Anthropic" ++ ": \x27move\x27"), i)) ∧
    (∀ i fuel j mv, missing_fields_resps i = ApiResp.parsed j → j.move = some mv →
      mv ∉ ["e4"] → i < 3 →
      llm_attempts "Anthropic" ["e4"] 3 missing_fields_resps (fun _ => 2) i (fuel + 1) =
        llm_attempts "Anthropic" ["e4"] 3 missing_fields_resps (fun _ => 2) (i + 1) fuel) ∧
    (∀ i fuel j mv, missing_fields_resps i = ApiResp.parsed j → j.move = some mv →
      mv ∈ ["e4"] ∨ ¬ i < 3 → j.explanation = none →
      llm_attempts "Anthropic" ["e4"] 3 missing_fields_resps (fun _ => 2) i (fuel + 1) =
        (Except.error ("Error calling " ++ "Anthropic" ++ " API: " ++
          "Invalid response format from " ++ "Anthropic" ++ ": \x27explanation\x27"), i)) ∧
    (∃ c2, GameController.play_loop 1 scenarioA raise_oracle 0 = LoopOut.finished c2 ∧
      c2.game = scenarioA.game ∧ c2.time_remaining = scenarioA.time_remaining ∧
      c2.game_stats.result =
        some (if toyEngine.turn scenarioA.game.board then "0-1" else "1-0") ∧
      c2.game_stats.termination =
        some ("Invalid move by " ++ color_name (toyEngine.turn scenarioA.game.board)) ∧
      ∃ s, c2.export_game = Except.ok (s, c2))) :=
  ⟨by rfl,
   C4_amended "Anthropic"
    "Error calling Anthropic API: Invalid response format from Anthropic: Expecting value"
    ["e4"] missing_fields_resps (fun _ => 2) 0 scenarioA raise_oracle 0 rfl rfl rfl⟩

/-- C5: a move is applied by `make_move` (board pushed and one record
appended) exactly when its UCI string parses and the parsed move is a
member of the legal-move set of the current board; on failure the game is
returned unchanged. -/
theorem C5_move_applied_iff_legal {E : Engine} (g : ChessGame E) (mu ms ex : String) :
    ((g.make_move mu ms ex).1 = true ↔
      ∃ m, E.from_uci mu = some m ∧ m ∈ E.legal_moves g.board) ∧
    ((g.make_move mu ms ex).1 = false → (g.make_move mu ms ex).2 = g) ∧
    (∀ m, E.from_uci mu = some m → m ∈ E.legal_moves g.board →
      (g.make_move mu ms ex).2.board = E.push g.board m ∧
      (g.make_move mu ms ex).2.move_history = g.move_history ++ [(mu, ms, ex)]) :=
  ⟨make_move_fst_iff g mu ms ex, fun h => make_move_of_false h,
   fun _ hp hm => ⟨(make_move_of_legal hp hm).2.1, (make_move_of_legal hp hm).2.2⟩⟩

/-- C5 witnessed on the toy engine at the legal move `a2a3`. -/
theorem C5_witness :
    (((scenarioA.game.make_move "a2a3" "a3" "test").1 = true ↔
      ∃ m, toyEngine.from_uci "a2a3" = some m ∧
        m ∈ toyEngine.legal_moves scenarioA.game.board) ∧
    ((scenarioA.game.make_move "a2a3" "a3" "test").1 = false →
      (scenarioA.game.make_move "a2a3" "a3" "test").2 = scenarioA.game) ∧
    (∀ m, toyEngine.from_uci "a2a3" = some m →
      m ∈ toyEngine.legal_moves scenarioA.game.board →
      (scenarioA.game.make_move "a2a3" "a3" "test").2.board =
        toyEngine.push scenarioA.game.board m ∧
      (scenarioA.game.make_move "a2a3" "a3" "test").2.move_history =
        scenarioA.game.move_history ++ [("a2a3", "a3", "test")])) :=
  C5_move_applied_iff_legal scenarioA.game "a2a3" "a3" "test"

/-- C6: in a timed match started with a positive time control, along the
whole trace of loop states the per-side clocks are monotonically
non-increasing, every state still carries both clocks, and every state
except possibly the last has both clocks strictly positive — so a clock
at or below zero can occur only at the final state, after which no
further charge (indeed no further turn) happens. -/
theorem C6_clock_monotone {E : Engine} (oracle : Nat → TurnResp) (fuel : Nat)
    (wn bn sd : String) (mm : Option Nat) (T : Rat) (hT : 0 < T)
    (hnn : ∀ n m, oracle n = TurnResp.reply m → 0 ≤ m.thinking_time) :
    List.Chain' (fun a b => wclock b ≤ wclock a ∧ bclock b ≤ bclock a)
      (GameController.play_trace fuel
        (GameController.init E wn bn (some T) mm sd) oracle 0) ∧
    (∀ c2 ∈ GameController.play_trace fuel
        (GameController.init E wn bn (some T) mm sd) oracle 0,
      c2.time_remaining.isSome = true) ∧
    (∀ c2 ∈ (GameController.play_trace fuel
        (GameController.init E wn bn (some T) mm sd) oracle 0).dropLast,
      0 < wclock c2 ∧ 0 < bclock c2) := by
  have htr : (GameController.init E wn bn (some T) mm sd).time_remaining = some (T, T) := by
    show (if T = 0 then none else some (T, T)) = some (T, T)
    rw [if_neg (ne_of_gt hT)]
  exact play_trace_clock oracle hnn fuel _ 0 T T htr hT hT

/-- C6 witnessed on a concrete timed run (10 seconds per side, one-second
replies, two loop iterations). -/
theorem C6_witness :
    List.Chain' (fun a b => wclock b ≤ wclock a ∧ bclock b ≤ bclock a)
      (GameController.play_trace 2
        (GameController.init toyEngine "OpenAILLM" "AnthropicLLM" (some 10) none
          "2024.01.01") demo_oracle 0) ∧
    (∀ c2 ∈ GameController.play_trace 2
        (GameController.init toyEngine "OpenAILLM" "AnthropicLLM" (some 10) none
          "2024.01.01") demo_oracle 0,
      c2.time_remaining.isSome = true) ∧
    (∀ c2 ∈ (GameController.play_trace 2
        (GameController.init toyEngine "OpenAILLM" "AnthropicLLM" (some 10) none
          "2024.01.01") demo_oracle 0).dropLast,
      0 < wclock c2 ∧ 0 < bclock c2) :=
  C6_clock_monotone demo_oracle 2 "OpenAILLM" "AnthropicLLM" "2024.01.01" none 10
    (by norm_num) (fun n m h => by cases h; norm_num [demo_reply])

/-- C7: at every point of the trace (hence after each statistics update),
each side's recorded running average equals the arithmetic mean of that
side's recorded thinking-time samples, and the recorded longest think
time is an upper bound of the samples, attained by one of them whenever
any sample exists (and 0 when none does), provided charged thinking times
are non-negative. -/
theorem C7_running_stats {E : Engine} (oracle : Nat → TurnResp) (fuel : Nat)
    (wn bn sd : String) (tc : Option Rat) (mm : Option Nat)
    (hnn : ∀ n m, oracle n = TurnResp.reply m → 0 ≤ m.thinking_time) :
    ∀ i : Nat, stats_ok ((GameController.play_trace fuel
        (GameController.init E wn bn tc mm sd) oracle 0).getD i
        (GameController.init E wn bn tc mm sd)) :=
  getD_forall stats_ok _ _
    (play_trace_stats oracle hnn fuel _ 0 (init_stats_ok E wn bn tc mm sd))
    (init_stats_ok E wn bn tc mm sd)

/-- C7 witnessed on the concrete Scenario A run at trace index 2. -/
theorem C7_witness :
    stats_ok ((GameController.play_trace 2
        (GameController.init toyEngine "OpenAILLM" "AnthropicLLM" none (some 1)
          "2024.01.01") demo_oracle 0).getD 2
        (GameController.init toyEngine "OpenAILLM" "AnthropicLLM" none (some 1)
          "2024.01.01")) :=
  C7_running_stats demo_oracle 2 "OpenAILLM" "AnthropicLLM" "2024.01.01" none (some 1)
    (fun n m h => by cases h; norm_num [demo_reply]) 2

/-- C8: `export_game` is deterministic and idempotent in the accumulated
state: a successful render leaves the controller state unchanged, and a
second call on that state returns the byte-identical transcript. -/
theorem C8_export_idempotent {E : Engine} (c c2 : GameController E) (s : String)
    (h : c.export_game = Except.ok (s, c2)) :
    c2 = c ∧ c2.export_game = Except.ok (s, c2) := by
  have hc : c2 = c := by
    unfold GameController.export_game at h
    cases hr : c.game_stats.result with
    | none =>
      simp only [hr] at h
      exact Except.noConfusion h
    | some r =>
      simp only [hr] at h
      injection h with h1
      exact (congrArg Prod.snd h1).symm
  refine ⟨hc, ?_⟩
  rw [hc] at h ⊢
  exact h

/-- C8 witnessed on a concrete controller state with a result present. -/
theorem C8_witness :
    ∃ s c2, exportDemo.export_game = Except.ok (s, c2) ∧ c2 = exportDemo ∧
      c2.export_game = Except.ok (s, c2) := by
  obtain ⟨s, hs⟩ := export_game_ok exportDemo "1-0" rfl
  obtain ⟨hc, hrep⟩ := C8_export_idempotent exportDemo exportDemo s hs
  exact ⟨s, exportDemo, hs, hc, hrep⟩

/-- C9: in a checkmate position the result property awards the win to the
side opposite the side to move: white to move gives `"0-1"`, black to
move gives `"1-0"`. -/
theorem C9_checkmate_result {E : Engine} (g : ChessGame E)
    (hover : E.is_game_over g.board = true) (hmate : E.is_checkmate g.board = true) :
    g.result = (if E.turn g.board then "0-1" else "1-0") := by
  unfold ChessGame.result ChessGame.is_game_over
  rw [hover, hmate]
  cases ht : E.turn g.board with
  | true => rfl
  | false => rfl

/-- C9 witnessed on the checkmate toy engine (white to move and
checkmated, so black wins). -/
theorem C9_witness :
    mateEngine.is_game_over scenarioMate.game.board = true ∧
    mateEngine.is_checkmate scenarioMate.game.board = true ∧
    scenarioMate.game.result = "0-1" :=
  ⟨rfl, rfl, (C9_checkmate_result scenarioMate.game rfl rfl).trans (by rfl)⟩

/-- C10: at every trace state of a match started from a fresh controller,
the statistics `total_moves` counter equals the length of the game's
move-history list; moreover every continuing loop iteration increments
the counter by exactly one and appends exactly one history record. -/
theorem C10_total_moves_eq_history {E : Engine} (oracle : Nat → TurnResp) (fuel : Nat)
    (wn bn sd : String) (tc : Option Rat) (mm : Option Nat) :
    (∀ i : Nat, moves_ok ((GameController.play_trace fuel
        (GameController.init E wn bn tc mm sd) oracle 0).getD i
        (GameController.init E wn bn tc mm sd))) ∧
    (∀ (c : GameController E) (k : Nat) (c2 : GameController E),
      GameController.loop_iter c (oracle k) = IterOut.next c2 →
      c2.game_stats.total_moves = c.game_stats.total_moves + 1 ∧
      c2.game.move_history.length = c.game.move_history.length + 1) := by
  constructor
  · exact getD_forall moves_ok _ _
      (play_trace_moves oracle fuel _ 0 (init_moves_ok E wn bn tc mm sd))
      (init_moves_ok E wn bn tc mm sd)
  · intro c k c2 hit
    obtain ⟨t, -, hlen, htot, -⟩ := loop_iter_next_spec hit
    exact ⟨htot, hlen⟩

/-- C10 witnessed on the concrete Scenario A run: the invariant at trace
index 1 and the exactly-one increment across the first iteration. -/
theorem C10_witness :
    moves_ok ((GameController.play_trace 2
        (GameController.init toyEngine "OpenAILLM" "AnthropicLLM" none (some 1)
          "2024.01.01") demo_oracle 0).getD 1
        (GameController.init toyEngine "OpenAILLM" "AnthropicLLM" none (some 1)
          "2024.01.01")) ∧
    (scenarioA_step.game_stats.total_moves = scenarioA.game_stats.total_moves + 1 ∧
     scenarioA_step.game.move_history.length = scenarioA.game.move_history.length + 1) :=
  ⟨(C10_total_moves_eq_history demo_oracle 2 "OpenAILLM" "AnthropicLLM" "2024.01.01"
      none (some 1)).1 1,
   (C10_total_moves_eq_history demo_oracle 2 "OpenAILLM" "AnthropicLLM" "2024.01.01"
      none (some 1)).2 scenarioA 0 scenarioA_step (by with_unfolding_all rfl)⟩
